import Mathlib

/-!
Verification of the pixel-matrix image editor (`editor_completo_trabalho.py`).

The development shallowly embeds the `ImageProcessor` class: a pixel matrix is a
list of rows of RGB triples of integers, the session state carries the
`original`, `resultado`, `alpha_frames`, `alpha_index` and `second_image`
fields, and each method becomes a function from states to either a successor
state or a raised Python error paired with the state left behind at the point
of the raise.  The fade and cross-fade animations multiply integer channels by
Python floats (`k / 5.0`, `k / 10.0`); those computations are embedded exactly,
as IEEE-754 binary64 arithmetic realised by correctly rounding exact rationals
to 53 significant bits with round-to-nearest, ties-to-even.
-/

attribute [local semireducible] Rat.mul Rat.add Rat.sub Rat.inv

set_option maxRecDepth 100000

/-! ## Exact model of the binary64 arithmetic used by the source -/

/-- Python `int(x)` applied to a float: truncation toward zero. -/
def ftrunc (q : ℚ) : ℤ := if q < 0 then -⌊-q⌋ else ⌊q⌋

/-- Round a rational to the nearest integer, ties going to the even integer. -/
def rne (q : ℚ) : ℤ :=
  let f := ⌊q⌋
  let r := q - (f : ℚ)
  if r < 1/2 then f else if 1/2 < r then f + 1 else if f % 2 = 0 then f else f + 1

/-- The rational `2 ^ n` for an integer exponent `n`. -/
def pw2 (n : ℤ) : ℚ :=
  if 0 ≤ n then ((2 ^ n.toNat : ℕ) : ℚ) else ((2 ^ (-n).toNat : ℕ) : ℚ)⁻¹

/-- Floor of the base-2 logarithm of a positive rational, by fuelled binary
search; the fuel of 4000 covers every magnitude the embedded program can
produce (all its values lie far inside `2 ^ ±4000`). -/
def log2q : ℕ → ℚ → ℤ
  | 0, _ => 0
  | fuel+1, q =>
    if q < 1 then log2q fuel (2 * q) - 1
    else if q < 2 then 0
    else log2q fuel (q / 2) + 1

/-- Round a positive rational to the nearest binary64 value: scale into
`[2^52, 2^53]`, round to an integer significand (ties to even), scale back. -/
def flPos (q : ℚ) : ℚ :=
  let e := log2q 4000 q
  ((rne (q * pw2 (52 - e)) : ℤ) : ℚ) * pw2 (e - 52)

/-- Correctly rounded conversion of an exact rational to binary64
(round to nearest, ties to even); exponents never leave the normal range for
the values this program computes, so overflow and subnormals do not arise. -/
def fl (q : ℚ) : ℚ :=
  if q = 0 then 0 else if q < 0 then -(flPos (-q)) else flPos q

/-- Binary64 division `x / y` (each Python float operation is the correctly
rounded exact result). -/
def fdiv (x y : ℚ) : ℚ := fl (x / y)

/-- Binary64 multiplication. -/
def fmul (x y : ℚ) : ℚ := fl (x * y)

/-- Binary64 addition. -/
def fadd (x y : ℚ) : ℚ := fl (x + y)

/-- Binary64 subtraction. -/
def fsub (x y : ℚ) : ℚ := fl (x - y)

/-! ## Pixel matrices -/

/-- An RGB pixel: the source stores 3-tuples of Python ints. -/
abbrev Pixel : Type := ℤ × ℤ × ℤ

/-- A raster image: a list of rows of pixels, exactly the nested lists built by
`carregar_imagem` and the transform methods. -/
abbrev PixelMatrix : Type := List (List Pixel)

/-- Channel values of an 8-bit pixel lie in `[0, 255]`. -/
def validPixel (p : Pixel) : Prop :=
  0 ≤ p.1 ∧ p.1 ≤ 255 ∧ 0 ≤ p.2.1 ∧ p.2.1 ≤ 255 ∧ 0 ≤ p.2.2 ∧ p.2.2 ≤ 255

/-- The PixelMatrix invariant of the specification: at least one row, all rows
of one equal length `> 0`, every channel in `[0, 255]`. -/
def validMatrix (m : PixelMatrix) : Prop :=
  m ≠ [] ∧ 0 < (m.headD []).length ∧
    (∀ row ∈ m, row.length = (m.headD []).length) ∧
    ∀ row ∈ m, ∀ p ∈ row, validPixel p

/-! ## The raised errors

The Python methods raise `ValueError` (explicitly), `TypeError` (using `None`
where a matrix is required), `IndexError` (list subscript out of range) and
`IOError`/`OSError` (file cannot be opened).  These are the error kinds the
specification names `FormatError`, `NoImageError` / `NoSecondImageError`, and
`IOError`. -/
inductive PyError : Type
  | valueError : PyError
  | typeError : PyError
  | indexError : PyError
  | ioError : PyError
deriving DecidableEq

/-! ## The custom raster text format (`carregar_ppm_p3` / `salvar_ppm_p3`)

A file is modelled at token level: the first line as its characters, the
dimension tokens of the second line as the integers they parse to, the
discarded third line likewise, and the remaining whitespace-separated integer
tokens in order.  Formatting of the decimal numerals themselves is Python's
`int`/`str` round trip and is not re-modelled. -/
structure P3File : Type where
  header : String
  dims : List ℤ
  maxline : List ℤ
  body : List ℤ
deriving DecidableEq

/-- Python `str.strip` on the characters of a line. -/
def pstrip (cs : List Char) : List Char :=
  ((cs.dropWhile Char.isWhitespace).reverse.dropWhile Char.isWhitespace).reverse

/-- Pixel assembled from `dados[idx]`, `dados[idx+1]`, `dados[idx+2]`; the
caller has checked the indices are in range, so the default never fires. -/
def pixOfDados (dados : List ℤ) (idx : ℕ) : Pixel :=
  (dados.getD idx 0, dados.getD (idx + 1) 0, dados.getD (idx + 2) 0)

/-- The nested loop of `carregar_ppm_p3`: row `i`, column `j` taken from
`dados[(i * largura + j) * 3]` onward. -/
def buildImg (dados : List ℤ) (largura altura : ℕ) : PixelMatrix :=
  (List.range altura).map fun i =>
    (List.range largura).map fun j => pixOfDados dados ((i * largura + j) * 3)

/-- Reading a P3 file (`carregar_ppm_p3`): `none` models a path that cannot be
opened, which raises `IOError`.  A first line whose stripped characters differ
from `P3` raises `ValueError`, a second line not holding exactly two integer
tokens fails the tuple unpacking with `ValueError`, and a pixel index beyond
the data raises `IndexError`; negative dimensions make the Python `range`
empty, as `Int.toNat` does here. -/
def carregar_ppm_p3 : Option P3File → Except PyError PixelMatrix
  | none => .error .ioError
  | some f =>
    if pstrip f.header.toList = ("P3".toList) then
      match f.dims with
      | [w, h] =>
        if ∀ i < h.toNat, ∀ j < w.toNat, (i * w.toNat + j) * 3 + 2 < f.body.length then
          .ok (buildImg f.body w.toNat h.toNat)
        else .error .indexError
      | _ => .error .valueError
    else .error .valueError

/-- Channel stream of one written row: `"{r} {g} {b}"` joined over the row. -/
def rowFlat (row : List Pixel) : List ℤ :=
  row.flatMap fun p => [p.1, p.2.1, p.2.2]

/-- Row-major channel stream of a matrix, as written by `salvar_ppm_p3`. -/
def flatten3 (m : PixelMatrix) : List ℤ :=
  m.flatMap rowFlat

/-- Writing a P3 file (`salvar_ppm_p3`): header `P3`, the line
`"{largura} {altura}"`, the literal maximum `255`, then the rows.  Called on a
`None` result it raises `TypeError` at `len(self.resultado)`, and on an empty
matrix `IndexError` at `self.resultado[0]`. -/
def salvar_ppm_p3 : Option PixelMatrix → Except PyError P3File
  | none => .error .typeError
  | some m =>
    if m = [] then .error .indexError
    else .ok ⟨"P3", [((m.headD []).length : ℤ), (m.length : ℤ)], [255], flatten3 m⟩

/-! ## The pure pixel transforms -/

/-- Transform of `aplicar_espelhamento_horizontal`: every row reversed. -/
def espelhamento_horizontal (m : PixelMatrix) : PixelMatrix :=
  m.map List.reverse

/-- Transform of `aplicar_espelhamento_vertical`: the row order reversed. -/
def espelhamento_vertical (m : PixelMatrix) : PixelMatrix :=
  m.reverse

/-- The matrix built by `rotacionar_direita`: `nova[j][h-1-i] = m[i][j]`, so
entry `(j, c)` of the result is `m[h-1-c][j]`. -/
def rotacao_direita (m : PixelMatrix) : PixelMatrix :=
  let h := m.length
  let w := (m.headD []).length
  (List.range w).map fun j =>
    (List.range h).map fun c => ((m.getD (h - 1 - c) []).getD j (0, 0, 0))

/-- The matrix built by `rotacionar_esquerda`: `nova[w-1-j][i] = m[i][j]`, so
entry `(r, i)` of the result is `m[i][w-1-r]`. -/
def rotacao_esquerda (m : PixelMatrix) : PixelMatrix :=
  let h := m.length
  let w := (m.headD []).length
  (List.range w).map fun r =>
    (List.range h).map fun i => ((m.getD i []).getD (w - 1 - r) (0, 0, 0))

/-- Predicate `cor_proxima` from `segmentar_por_cor`: every channel within the
tolerance. -/
def cor_proxima (alvo : Pixel) (tolerancia : ℤ) (p : Pixel) : Bool :=
  decide (|p.1 - alvo.1| ≤ tolerancia ∧ |p.2.1 - alvo.2.1| ≤ tolerancia ∧
    |p.2.2 - alvo.2.2| ≤ tolerancia)

/-- One pixel of `segmentar_por_cor`: kept when close to the target, black
otherwise. -/
def segmentPixel (alvo : Pixel) (tolerancia : ℤ) (p : Pixel) : Pixel :=
  if cor_proxima alvo tolerancia p then p else (0, 0, 0)

/-- The whole segmentation map over the matrix. -/
def segmentacao (alvo : Pixel) (tolerancia : ℤ) (m : PixelMatrix) : PixelMatrix :=
  m.map (List.map (segmentPixel alvo tolerancia))

/-! ## Fade and cross-fade frames -/

/-- One channel of a fade frame: `int(p[c] * a)` with `a = k / 5.0`, evaluated
in binary64 (the Python int is first converted to float). -/
def fadeChannel (k : ℕ) (c : ℤ) : ℤ :=
  ftrunc (fmul (fl (c : ℚ)) (fdiv (k : ℚ) 5))

/-- One pixel of a fade frame. -/
def fadePixel (k : ℕ) (p : Pixel) : Pixel :=
  (fadeChannel k p.1, fadeChannel k p.2.1, fadeChannel k p.2.2)

/-- Frame `k` of `aplicar_transparencia_preto`. -/
def fadeFrame (k : ℕ) (m : PixelMatrix) : PixelMatrix :=
  m.map (List.map (fadePixel k))

/-- The six frames `k = 0 .. 5` of `aplicar_transparencia_preto`. -/
def fadeFrames (m : PixelMatrix) : List PixelMatrix :=
  (List.range 6).map fun k => fadeFrame k m

/-- One channel of a cross-fade frame:
`int(c1 * (1 - a) + c2 * a)` with `a = k / 10.0`, in binary64. -/
def blendChannel (k : ℕ) (c1 c2 : ℤ) : ℤ :=
  let a := fdiv (k : ℚ) 10
  ftrunc (fadd (fmul (fl (c1 : ℚ)) (fsub 1 a)) (fmul (fl (c2 : ℚ)) a))

/-- One pixel of a cross-fade frame. -/
def blendPixel (k : ℕ) (p q : Pixel) : Pixel :=
  (blendChannel k p.1 q.1, blendChannel k p.2.1 q.2.1, blendChannel k p.2.2 q.2.2)

/-- Frame `k` of `aplicar_mistura`, over `h` rows and `w` columns taken from
`im1`; indexing has been checked by the caller, so the defaults never fire. -/
def blendFrame (k : ℕ) (im1 im2 : PixelMatrix) (h w : ℕ) : PixelMatrix :=
  (List.range h).map fun i =>
    (List.range w).map fun j =>
      blendPixel k ((im1.getD i []).getD j (0, 0, 0)) ((im2.getD i []).getD j (0, 0, 0))

/-- The eleven frames `k = 0 .. 10` of `aplicar_mistura`. -/
def blendFrames (im1 im2 : PixelMatrix) (h w : ℕ) : List PixelMatrix :=
  (List.range 11).map fun k => blendFrame k im1 im2 h w

/-! ## The session state and its operations

Each method becomes a function on `ImageProcessor`.  A method that can raise
returns `Except (PyError × ImageProcessor) ImageProcessor`; the state paired
with the error is the state the object is left in when the exception
propagates (Python objects keep the mutations made before the raise). -/
structure ImageProcessor : Type where
  original : Option PixelMatrix
  resultado : Option PixelMatrix
  alpha_frames : List PixelMatrix
  alpha_index : ℕ
  second_image : Option PixelMatrix
deriving DecidableEq

/-- Outcome of a session method: a successor state, or a raised error together
with the state left behind. -/
abbrev POut : Type := Except (PyError × ImageProcessor) ImageProcessor

/-- The state an operation leaves the session in, whether or not it raised. -/
def after (r : POut) : ImageProcessor :=
  match r with
  | .ok s => s
  | .error (_, s) => s

/-- The freshly constructed `ImageProcessor()`. -/
def initProcessor : ImageProcessor :=
  ⟨none, none, [], 0, none⟩

/-- Method `carregar_imagem`, after decoding succeeded with matrix `img`: sets
`original` and `resultado` to (a row-copy of) `img` and touches nothing else —
in particular `alpha_frames`, `alpha_index` and `second_image` survive. -/
def carregar_imagem (img : PixelMatrix) (s : ImageProcessor) : ImageProcessor :=
  { s with original := some img, resultado := some img }

/-- Method `preparar_mistura`, after decoding succeeded with matrix `img2`. -/
def preparar_mistura (img2 : PixelMatrix) (s : ImageProcessor) : ImageProcessor :=
  { s with second_image := some img2 }

/-- Method `restaurar_original`: copy `original` into `resultado`, clear the frames,
reset the cursor.  With no loaded original, iterating `None` raises
`TypeError` before anything is mutated. -/
def restaurar_original (s : ImageProcessor) : POut :=
  match s.original with
  | none => .error (.typeError, s)
  | some img =>
    .ok { s with resultado := some img, alpha_frames := [], alpha_index := 0 }

/-- The mirror method: `resultado` replaced by its horizontal mirror; frames
and cursor untouched.  On a `None` result the comprehension raises
`TypeError`. -/
def aplicar_espelhamento_horizontal (s : ImageProcessor) : POut :=
  match s.resultado with
  | none => .error (.typeError, s)
  | some m => .ok { s with resultado := some (espelhamento_horizontal m) }

/-- The vertical mirror method. -/
def aplicar_espelhamento_vertical (s : ImageProcessor) : POut :=
  match s.resultado with
  | none => .error (.typeError, s)
  | some m => .ok { s with resultado := some (espelhamento_vertical m) }

/-- Indexing performed by the rotation loops: `m[i][j]` for every `i < h` and
`j < w`, where `w` is the length of row 0. -/
def rotacaoAcessos (m : PixelMatrix) : Prop :=
  ∀ row ∈ m, (m.headD []).length ≤ row.length

instance (m : PixelMatrix) : Decidable (rotacaoAcessos m) := by
  unfold rotacaoAcessos; infer_instance

/-- Method `rotacionar_direita`: on a `None` result, `len(None)` raises `TypeError`;
on an empty matrix `self.resultado[0]` raises `IndexError`; a row shorter than
row 0 raises `IndexError` inside the loop, discarding the local `nova`. -/
def rotacionar_direita (s : ImageProcessor) : POut :=
  match s.resultado with
  | none => .error (.typeError, s)
  | some m =>
    if m = [] then .error (.indexError, s)
    else if rotacaoAcessos m then .ok { s with resultado := some (rotacao_direita m) }
    else .error (.indexError, s)

/-- Method `rotacionar_esquerda`, with the same failure behaviour as
`rotacionar_direita`. -/
def rotacionar_esquerda (s : ImageProcessor) : POut :=
  match s.resultado with
  | none => .error (.typeError, s)
  | some m =>
    if m = [] then .error (.indexError, s)
    else if rotacaoAcessos m then .ok { s with resultado := some (rotacao_esquerda m) }
    else .error (.indexError, s)

/-- Method `segmentar_por_cor`: `resultado` replaced pixelwise; frames and cursor
untouched. -/
def segmentar_por_cor (alvo : Pixel) (tolerancia : ℤ) (s : ImageProcessor) : POut :=
  match s.resultado with
  | none => .error (.typeError, s)
  | some m => .ok { s with resultado := some (segmentacao alvo tolerancia m) }

/-- Method `aplicar_transparencia_preto`: the frame list is cleared first, so when
`original` is `None` the `TypeError` of the first comprehension leaves the
session with an empty frame list and an unchanged cursor.  Otherwise the six
fade frames are installed, `resultado := alpha_frames[0]`, cursor 0. -/
def aplicar_transparencia_preto (s : ImageProcessor) : POut :=
  match s.original with
  | none => .error (.typeError, { s with alpha_frames := [] })
  | some img =>
    let fs := fadeFrames img
    .ok { s with alpha_frames := fs, resultado := some (fs.getD 0 []), alpha_index := 0 }

/-- Method `avancar_transparencia`: a no-op on an empty frame list; otherwise the
cursor advances modulo the length and `resultado` tracks the new frame. -/
def avancar_transparencia (s : ImageProcessor) : ImageProcessor :=
  if s.alpha_frames = [] then s
  else
    let i := (s.alpha_index + 1) % s.alpha_frames.length
    { s with alpha_index := i, resultado := some (s.alpha_frames.getD i []) }

/-- Indexing performed by the cross-fade loops: `im1[i][j]` and `im2[i][j]`
for every `i < h`, `j < w`. -/
def misturaAcessos (im1 im2 : PixelMatrix) (h w : ℕ) : Prop :=
  ∀ i < h, ∀ j < w,
    j < (im1.getD i []).length ∧ i < im2.length ∧ j < (im2.getD i []).length

instance (im1 im2 : PixelMatrix) (h w : ℕ) : Decidable (misturaAcessos im1 im2 h w) := by
  unfold misturaAcessos; infer_instance

/-- Method `aplicar_mistura`: raises `ValueError` with no second image (before any
mutation) and `TypeError` when `len(None)` is taken on a missing original;
`self.original[0]` on an empty original raises `IndexError` before the frame
list is touched.  The frame list is cleared before the loop, so an
out-of-range pixel access raises `IndexError` leaving the frames empty (the
very first frame already performs every access, so nothing was appended).
On success the eleven frames are installed, `resultado := alpha_frames[0]`,
cursor 0.  No dimension check is made: `h` and `w` come from `original`
alone. -/
def aplicar_mistura (s : ImageProcessor) : POut :=
  match s.second_image with
  | none => .error (.valueError, s)
  | some im2 =>
    match s.original with
    | none => .error (.typeError, s)
    | some im1 =>
      if im1 = [] then .error (.indexError, s)
      else
        let h := im1.length
        let w := (im1.headD []).length
        if misturaAcessos im1 im2 h w then
          let fs := blendFrames im1 im2 h w
          .ok { s with alpha_frames := fs, resultado := some (fs.getD 0 []), alpha_index := 0 }
        else .error (.indexError, { s with alpha_frames := [] })

/-! ## The step relation of the session -/

/-- One application of any exposed mutating operation, counting the state a
raising call leaves behind as a successor as well. -/
def Step (s s' : ImageProcessor) : Prop :=
  (∃ img, s' = carregar_imagem img s) ∨
  (∃ img2, s' = preparar_mistura img2 s) ∨
  s' = after (restaurar_original s) ∨
  s' = after (aplicar_espelhamento_horizontal s) ∨
  s' = after (aplicar_espelhamento_vertical s) ∨
  s' = after (rotacionar_direita s) ∨
  s' = after (rotacionar_esquerda s) ∨
  (∃ alvo tolerancia, s' = after (segmentar_por_cor alvo tolerancia s)) ∨
  s' = after (aplicar_transparencia_preto s) ∨
  s' = after (aplicar_mistura s) ∨
  s' = avancar_transparencia s

/-- States reachable from the fresh session by any operation sequence. -/
def ReachableState (s : ImageProcessor) : Prop :=
  Relation.ReflTransGen Step initProcessor s

/-- One application of an operation that maintains the frame-tracking
invariant: second-image loading, restore, the two frame generators, and the
frame advance (the remaining operations overwrite or keep `resultado` without
clearing the frames). -/
def StepKeep (s s' : ImageProcessor) : Prop :=
  (∃ img2, s' = preparar_mistura img2 s) ∨
  s' = after (restaurar_original s) ∨
  s' = after (aplicar_transparencia_preto s) ∨
  s' = after (aplicar_mistura s) ∨
  s' = avancar_transparencia s

/-- Invariant of claim C1: a non-empty frame list means `resultado` is exactly
the frame under the cursor. -/
def FrameTracking (s : ImageProcessor) : Prop :=
  s.alpha_frames ≠ [] → s.resultado = some (s.alpha_frames.getD s.alpha_index [])

/-- Invariant of claim C9: a non-empty frame list keeps the cursor strictly
below its length. -/
def CursorInRange (s : ImageProcessor) : Prop :=
  s.alpha_frames ≠ [] → s.alpha_index < s.alpha_frames.length

instance (p : Pixel) : Decidable (validPixel p) := by
  unfold validPixel; infer_instance

instance (m : PixelMatrix) : Decidable (validMatrix m) := by
  unfold validMatrix; infer_instance

instance (s : ImageProcessor) : Decidable (FrameTracking s) := by
  unfold FrameTracking; infer_instance

instance (s : ImageProcessor) : Decidable (CursorInRange s) := by
  unfold CursorInRange; infer_instance

/-! ## Arithmetic facts about the embedded binary64 operations -/

/-- Rounding is exact on the small integers the pixel channels live in. -/
theorem flId256 : ∀ n : ℕ, n < 256 → fl ((n : ℤ) : ℚ) = ((n : ℤ) : ℚ) := by decide

/-- Conversion of a channel value to a float is exact. -/
theorem fl_intCast (c : ℤ) (h0 : 0 ≤ c) (h1 : c ≤ 255) : fl (c : ℚ) = (c : ℚ) := by
  obtain ⟨n, rfl⟩ := Int.eq_ofNat_of_zero_le h0
  exact flId256 n (by omega)

theorem ftrunc_intCast (c : ℤ) : ftrunc (c : ℚ) = c := by
  unfold ftrunc
  split_ifs with h
  · rw [← Int.cast_neg, Int.floor_intCast, neg_neg]
  · exact Int.floor_intCast c

theorem fdiv_zero_five : fdiv ((0 : ℕ) : ℚ) 5 = 0 := by decide

theorem fdiv_five_five : fdiv ((5 : ℕ) : ℚ) 5 = 1 := by decide

theorem fdiv_zero_ten : fdiv ((0 : ℕ) : ℚ) 10 = 0 := by decide

theorem fdiv_ten_ten : fdiv ((10 : ℕ) : ℚ) 10 = 1 := by decide

theorem fsub_one_zero : fsub 1 0 = 1 := by decide

theorem fsub_one_one : fsub 1 1 = 0 := by decide

theorem fmul_zero_right (x : ℚ) : fmul x 0 = 0 := by
  simp [fmul, fl]

theorem fmul_one_right (x : ℚ) : fmul x 1 = fl x := by
  simp [fmul]

theorem fadd_zero_right (x : ℚ) : fadd x 0 = fl x := by
  simp [fadd]

theorem fadd_zero_left (x : ℚ) : fadd 0 x = fl x := by
  simp [fadd]

/-- Frame 0 of the fade multiplies by `0.0`: every channel collapses to 0,
whatever integer it held. -/
theorem fadeChannel_zero (c : ℤ) : fadeChannel 0 c = 0 := by
  have h0 : ftrunc ((0 : ℤ) : ℚ) = 0 := ftrunc_intCast 0
  simp only [fadeChannel, fdiv_zero_five, fmul_zero_right]
  simpa using h0

/-- Frame 5 multiplies by `5 / 5.0 = 1.0` exactly: channels in range come back
unchanged. -/
theorem fadeChannel_five (c : ℤ) (h0 : 0 ≤ c) (h1 : c ≤ 255) : fadeChannel 5 c = c := by
  simp only [fadeChannel, fdiv_five_five, fmul_one_right, fl_intCast c h0 h1, ftrunc_intCast]

/-- Cross-fade frame 0 (`a = 0.0`, `1 - a = 1.0`) reproduces the first image's
channel exactly. -/
theorem blendChannel_zero (c1 c2 : ℤ) (h0 : 0 ≤ c1) (h1 : c1 ≤ 255) :
    blendChannel 0 c1 c2 = c1 := by
  simp only [blendChannel, fdiv_zero_ten, fsub_one_zero, fmul_one_right, fmul_zero_right,
    fadd_zero_right, fl_intCast c1 h0 h1, ftrunc_intCast]

/-- Cross-fade frame 10 (`a = 1.0`, `1 - a = 0.0`) reproduces the second
image's channel exactly. -/
theorem blendChannel_ten (c1 c2 : ℤ) (h0 : 0 ≤ c2) (h1 : c2 ≤ 255) :
    blendChannel 10 c1 c2 = c2 := by
  simp only [blendChannel, fdiv_ten_ten, fsub_one_one, fmul_one_right, fmul_zero_right,
    fadd_zero_left, fl_intCast c2 h0 h1, ftrunc_intCast]

/-- Pixel versions of the channel facts. -/
theorem fadePixel_zero (p : Pixel) : fadePixel 0 p = (0, 0, 0) := by
  simp [fadePixel, fadeChannel_zero]

theorem fadePixel_five (p : Pixel) (hp : validPixel p) : fadePixel 5 p = p := by
  obtain ⟨h1, h2, h3, h4, h5, h6⟩ := hp
  simp [fadePixel, fadeChannel_five _ h1 h2, fadeChannel_five _ h3 h4, fadeChannel_five _ h5 h6]

theorem blendPixel_zero (p q : Pixel) (hp : validPixel p) : blendPixel 0 p q = p := by
  obtain ⟨h1, h2, h3, h4, h5, h6⟩ := hp
  simp [blendPixel, blendChannel_zero _ _ h1 h2, blendChannel_zero _ _ h3 h4,
    blendChannel_zero _ _ h5 h6]

theorem blendPixel_ten (p q : Pixel) (hq : validPixel q) : blendPixel 10 p q = q := by
  obtain ⟨h1, h2, h3, h4, h5, h6⟩ := hq
  simp [blendPixel, blendChannel_ten _ _ h1 h2, blendChannel_ten _ _ h3 h4,
    blendChannel_ten _ _ h5 h6]

/-! ## List reconstruction lemmas -/

theorem getD_range_eq {α : Type} (l : List α) (d : α) :
    (List.range l.length).map (fun j => l.getD j d) = l := by
  induction l with
  | nil => simp
  | cons a t ih =>
    rw [List.length_cons, List.range_succ_eq_map, List.map_cons, List.map_map]
    simp only [Function.comp_def, List.getD_cons_succ, List.getD_cons_zero]
    rw [ih]

theorem getD_mem_of_lt {α : Type} (l : List α) (d : α) (i : ℕ) (hi : i < l.length) :
    l.getD i d ∈ l := by
  rw [List.getD_eq_getElem l d hi]
  exact List.getElem_mem hi

theorem reindex_matrix (m : PixelMatrix) (w : ℕ)
    (hrect : ∀ row ∈ m, row.length = w) :
    (List.range m.length).map
      (fun i => (List.range w).map fun j => (m.getD i []).getD j (0, 0, 0)) = m := by
  have h : ∀ i ∈ List.range m.length,
      (List.range w).map (fun j => (m.getD i []).getD j ((0 : ℤ), (0 : ℤ), (0 : ℤ)))
        = m.getD i [] := by
    intro i hi
    rw [List.mem_range] at hi
    rw [← hrect _ (getD_mem_of_lt m [] i hi)]
    exact getD_range_eq _ _
  rw [List.map_congr_left h]
  exact getD_range_eq m []

/-! ## Decode / encode round trip machinery -/

theorem length_rowFlat (row : List Pixel) : (rowFlat row).length = 3 * row.length := by
  induction row with
  | nil => simp [rowFlat]
  | cons p t ih =>
    simp only [rowFlat, List.flatMap_cons] at ih ⊢
    simp [ih]
    omega

theorem length_flatten3 (m : PixelMatrix) (w : ℕ) (hrect : ∀ row ∈ m, row.length = w) :
    (flatten3 m).length = 3 * w * m.length := by
  induction m with
  | nil => simp [flatten3]
  | cons r tl ih =>
    have hr : r.length = w := hrect r (by simp)
    simp only [flatten3, List.flatMap_cons, List.length_append] at ih ⊢
    rw [length_rowFlat, hr, ih fun row hrow => hrect row (by simp [hrow])]
    simp [List.length_cons]
    ring

theorem getD_offset (l1 l2 : List ℤ) (t : ℕ) :
    (l1 ++ l2).getD (l1.length + t) 0 = l2.getD t 0 := by
  rw [List.getD_append_right _ _ _ _ (Nat.le_add_right _ _), Nat.add_sub_cancel_left]

theorem pix_append (l1 l2 : List ℤ) (t : ℕ) :
    pixOfDados (l1 ++ l2) (l1.length + t) = pixOfDados l2 t := by
  unfold pixOfDados
  rw [getD_offset, (by omega : l1.length + t + 1 = l1.length + (t + 1)), getD_offset,
    (by omega : l1.length + t + 2 = l1.length + (t + 2)), getD_offset]

theorem pix_cons3 (x y z : ℤ) (l : List ℤ) (n : ℕ) :
    pixOfDados (x :: y :: z :: l) (n + 3) = pixOfDados l n := by
  have h := pix_append [x, y, z] l n
  simpa [(by omega : (3 : ℕ) + n = n + 3)] using h

theorem rowBuild (row : List Pixel) (rest : List ℤ) :
    (List.range row.length).map (fun j => pixOfDados (rowFlat row ++ rest) (j * 3)) = row := by
  induction row generalizing rest with
  | nil => simp
  | cons p t ih =>
    rw [List.length_cons, List.range_succ_eq_map, List.map_cons, List.map_map]
    have hhead : pixOfDados (rowFlat (p :: t) ++ rest) (0 * 3) = p := by
      simp [rowFlat, pixOfDados]
    have htail : ∀ j ∈ List.range t.length,
        ((fun j => pixOfDados (rowFlat (p :: t) ++ rest) (j * 3)) ∘ Nat.succ) j
          = pixOfDados (rowFlat t ++ rest) (j * 3) := by
      intro j _
      have harith : (j + 1) * 3 = j * 3 + 3 := by ring
      simp only [Function.comp_apply, Nat.succ_eq_add_one, harith]
      have : rowFlat (p :: t) ++ rest = p.1 :: p.2.1 :: p.2.2 :: (rowFlat t ++ rest) := by
        simp [rowFlat, List.flatMap_cons]
      rw [this, pix_cons3]
    rw [hhead, List.map_congr_left htail, ih rest]

theorem buildImg_flatten3 (m : PixelMatrix) (w : ℕ) (hrect : ∀ row ∈ m, row.length = w) :
    buildImg (flatten3 m) w m.length = m := by
  induction m with
  | nil => simp [buildImg]
  | cons r tl ih =>
    have hw : r.length = w := hrect r (by simp)
    have hflat : flatten3 (r :: tl) = rowFlat r ++ flatten3 tl := by
      simp [flatten3, List.flatMap_cons]
    unfold buildImg
    rw [List.length_cons, List.range_succ_eq_map, List.map_cons, List.map_map]
    have hhead : (List.range w).map
        (fun j => pixOfDados (flatten3 (r :: tl)) ((0 * w + j) * 3)) = r := by
      rw [hflat, ← hw]
      have := rowBuild r (flatten3 tl)
      simpa [Nat.zero_mul, Nat.zero_add] using this
    have htail : ∀ i ∈ List.range tl.length,
        ((fun i => (List.range w).map fun j => pixOfDados (flatten3 (r :: tl)) ((i * w + j) * 3)) ∘
            Nat.succ) i
          = (List.range w).map fun j => pixOfDados (flatten3 tl) ((i * w + j) * 3) := by
      intro i _
      simp only [Function.comp_apply, Nat.succ_eq_add_one]
      apply List.map_congr_left
      intro j _
      rw [hflat]
      have harith : ((i + 1) * w + j) * 3 = (rowFlat r).length + (i * w + j) * 3 := by
        rw [length_rowFlat, hw]; ring
      rw [harith, pix_append]
    rw [hhead, List.map_congr_left htail]
    have := ih fun row hrow => hrect row (by simp [hrow])
    unfold buildImg at this
    rw [this]

/-! ## Frame-level facts -/

theorem fadeFrames_length (m : PixelMatrix) : (fadeFrames m).length = 6 := by
  simp [fadeFrames]

theorem fadeFrames_getD (m : PixelMatrix) (k : ℕ) (hk : k < 6) :
    (fadeFrames m).getD k [] = fadeFrame k m := by
  interval_cases k <;> rfl

theorem fadeFrame_zero_black (m : PixelMatrix) :
    ∀ row ∈ fadeFrame 0 m, ∀ p ∈ row, p = ((0 : ℤ), (0 : ℤ), (0 : ℤ)) := by
  intro row hrow p hp
  simp only [fadeFrame, List.mem_map] at hrow
  obtain ⟨r0, _, rfl⟩ := hrow
  simp only [List.mem_map] at hp
  obtain ⟨p0, _, rfl⟩ := hp
  exact fadePixel_zero p0

theorem fadeFrame_five (m : PixelMatrix)
    (hvalid : ∀ row ∈ m, ∀ p ∈ row, validPixel p) : fadeFrame 5 m = m := by
  unfold fadeFrame
  have h : ∀ row ∈ m, row.map (fadePixel 5) = row := by
    intro row hrow
    have h2 : ∀ p ∈ row, fadePixel 5 p = id p :=
      fun p hp => fadePixel_five p (hvalid row hrow p hp)
    rw [List.map_congr_left h2, List.map_id]
  have h3 : ∀ row ∈ m, (List.map (fadePixel 5)) row = id row := fun row hrow => h row hrow
  rw [List.map_congr_left h3, List.map_id]

theorem blendFrames_length (im1 im2 : PixelMatrix) (h w : ℕ) :
    (blendFrames im1 im2 h w).length = 11 := by
  simp [blendFrames]

theorem blendFrames_getD (im1 im2 : PixelMatrix) (h w : ℕ) (k : ℕ) (hk : k < 11) :
    (blendFrames im1 im2 h w).getD k [] = blendFrame k im1 im2 h w := by
  interval_cases k <;> rfl

theorem blendFrame_zero (a b : PixelMatrix) (w : ℕ)
    (hrect : ∀ row ∈ a, row.length = w)
    (hvalid : ∀ row ∈ a, ∀ p ∈ row, validPixel p) :
    blendFrame 0 a b a.length w = a := by
  unfold blendFrame
  have h1 : ∀ i ∈ List.range a.length,
      (List.range w).map
        (fun j => blendPixel 0 ((a.getD i []).getD j (0, 0, 0)) ((b.getD i []).getD j (0, 0, 0)))
        = (List.range w).map fun j => (a.getD i []).getD j ((0 : ℤ), (0 : ℤ), (0 : ℤ)) := by
    intro i hi
    rw [List.mem_range] at hi
    apply List.map_congr_left
    intro j hj
    rw [List.mem_range] at hj
    have hmem : a.getD i [] ∈ a := getD_mem_of_lt a [] i hi
    have hjlen : j < (a.getD i []).length := by rw [hrect _ hmem]; exact hj
    exact blendPixel_zero _ _ (hvalid _ hmem _ (getD_mem_of_lt _ _ j hjlen))
  rw [List.map_congr_left h1]
  exact reindex_matrix a w hrect

theorem blendFrame_ten (a b : PixelMatrix) (w : ℕ)
    (hlen : a.length = b.length)
    (hrect : ∀ row ∈ b, row.length = w)
    (hvalid : ∀ row ∈ b, ∀ p ∈ row, validPixel p) :
    blendFrame 10 a b a.length w = b := by
  unfold blendFrame
  rw [hlen]
  have h1 : ∀ i ∈ List.range b.length,
      (List.range w).map
        (fun j => blendPixel 10 ((a.getD i []).getD j (0, 0, 0)) ((b.getD i []).getD j (0, 0, 0)))
        = (List.range w).map fun j => (b.getD i []).getD j ((0 : ℤ), (0 : ℤ), (0 : ℤ)) := by
    intro i hi
    rw [List.mem_range] at hi
    apply List.map_congr_left
    intro j hj
    rw [List.mem_range] at hj
    have hmem : b.getD i [] ∈ b := getD_mem_of_lt b [] i hi
    have hjlen : j < (b.getD i []).length := by rw [hrect _ hmem]; exact hj
    exact blendPixel_ten _ _ (hvalid _ hmem _ (getD_mem_of_lt _ _ j hjlen))
  rw [List.map_congr_left h1]
  exact reindex_matrix b w hrect

/-! ## Invariant preservation -/

theorem cursorInRange_step {s s' : ImageProcessor} (h : Step s s') (hs : CursorInRange s) :
    CursorInRange s' := by
  unfold CursorInRange at *
  rcases h with ⟨img, rfl⟩ | ⟨img2, rfl⟩ | rfl | rfl | rfl | rfl | rfl | ⟨alvo, tol, rfl⟩ | rfl | rfl | rfl
  · simpa [carregar_imagem] using hs
  · simpa [preparar_mistura] using hs
  · unfold restaurar_original
    cases ho : s.original with
    | none => simpa [after, ho] using hs
    | some img => simp [after, ho]
  · unfold aplicar_espelhamento_horizontal
    cases hr : s.resultado with
    | none => simpa [after, hr] using hs
    | some m => simpa [after, hr] using hs
  · unfold aplicar_espelhamento_vertical
    cases hr : s.resultado with
    | none => simpa [after, hr] using hs
    | some m => simpa [after, hr] using hs
  · unfold rotacionar_direita
    cases hr : s.resultado with
    | none => simpa [after, hr] using hs
    | some m =>
      by_cases hm : m = []
      · simpa [after, hr, hm] using hs
      · by_cases hacc : rotacaoAcessos m
        · simpa [after, hr, hm, hacc] using hs
        · simpa [after, hr, hm, hacc] using hs
  · unfold rotacionar_esquerda
    cases hr : s.resultado with
    | none => simpa [after, hr] using hs
    | some m =>
      by_cases hm : m = []
      · simpa [after, hr, hm] using hs
      · by_cases hacc : rotacaoAcessos m
        · simpa [after, hr, hm, hacc] using hs
        · simpa [after, hr, hm, hacc] using hs
  · unfold segmentar_por_cor
    cases hr : s.resultado with
    | none => simpa [after, hr] using hs
    | some m => simpa [after, hr] using hs
  · unfold aplicar_transparencia_preto
    cases ho : s.original with
    | none => simp [after, ho]
    | some img => simp [after, ho, fadeFrames_length]
  · unfold aplicar_mistura
    cases hsec : s.second_image with
    | none => simpa [after, hsec] using hs
    | some im2 =>
      cases ho : s.original with
      | none => simpa [after, hsec, ho] using hs
      | some im1 =>
        by_cases hm : im1 = []
        · simpa [after, hsec, ho, hm] using hs
        · simp only [hsec, ho, if_neg hm]
          by_cases hacc : misturaAcessos im1 im2 im1.length (im1.headD []).length
          · rw [if_pos hacc]
            simp only [after]
            intro _
            rw [blendFrames_length]
            norm_num
          · rw [if_neg hacc]
            simp [after]
  · unfold avancar_transparencia
    by_cases hfr : s.alpha_frames = []
    · simp [hfr]
    · intro _
      simp only [hfr, if_false]
      exact Nat.mod_lt _ (List.length_pos.mpr hfr)

theorem frameTracking_stepKeep {s s' : ImageProcessor} (h : StepKeep s s')
    (hs : FrameTracking s) : FrameTracking s' := by
  unfold FrameTracking at *
  rcases h with ⟨img2, rfl⟩ | rfl | rfl | rfl | rfl
  · simpa [preparar_mistura] using hs
  · unfold restaurar_original
    cases ho : s.original with
    | none => simpa [after, ho] using hs
    | some img => simp [after, ho]
  · unfold aplicar_transparencia_preto
    cases ho : s.original with
    | none => simp [after, ho]
    | some img => simp [after, ho]
  · unfold aplicar_mistura
    cases hsec : s.second_image with
    | none => simpa [after, hsec] using hs
    | some im2 =>
      cases ho : s.original with
      | none => simpa [after, hsec, ho] using hs
      | some im1 =>
        by_cases hm : im1 = []
        · simpa [after, hsec, ho, hm] using hs
        · simp only [hsec, ho, if_neg hm]
          by_cases hacc : misturaAcessos im1 im2 im1.length (im1.headD []).length
          · rw [if_pos hacc]
            simp [after]
          · rw [if_neg hacc]
            simp [after]
  · unfold avancar_transparencia
    by_cases hfr : s.alpha_frames = []
    · simp [hfr]
    · simp [hfr]

deriving instance DecidableEq for Except

/-! ## Step constructors -/

theorem step_carregar (img : PixelMatrix) (s : ImageProcessor) :
    Step s (carregar_imagem img s) :=
  Or.inl ⟨img, rfl⟩

theorem step_espelhamento_horizontal (s : ImageProcessor) :
    Step s (after (aplicar_espelhamento_horizontal s)) :=
  Or.inr (Or.inr (Or.inr (Or.inl rfl)))

theorem step_transparencia (s : ImageProcessor) :
    Step s (after (aplicar_transparencia_preto s)) :=
  Or.inr (Or.inr (Or.inr (Or.inr (Or.inr (Or.inr (Or.inr (Or.inr (Or.inl rfl))))))))

theorem step_avancar (s : ImageProcessor) :
    Step s (avancar_transparencia s) :=
  Or.inr (Or.inr (Or.inr (Or.inr (Or.inr (Or.inr (Or.inr (Or.inr (Or.inr (Or.inr rfl)))))))))

theorem stepKeep_transparencia (s : ImageProcessor) :
    StepKeep s (after (aplicar_transparencia_preto s)) :=
  Or.inr (Or.inr (Or.inl rfl))

theorem stepKeep_avancar (s : ImageProcessor) :
    StepKeep s (avancar_transparencia s) :=
  Or.inr (Or.inr (Or.inr (Or.inr rfl)))

/-! ## Claim C5 -/

/-- C5: `restaurar_original` copies the loaded original into `resultado`,
clears the frame sequence and resets the cursor to 0; with no original loaded
it fails (the `NoImageError` of the specification is realised as the
`TypeError` Python raises when iterating `None`). -/
theorem c5_restaurar_original (s : ImageProcessor) :
    (s.original = none → restaurar_original s = .error (.typeError, s)) ∧
    ∀ img, s.original = some img →
      restaurar_original s =
        .ok { s with resultado := some img, alpha_frames := [], alpha_index := 0 } := by
  constructor
  · intro h
    simp [restaurar_original, h]
  · intro img h
    simp [restaurar_original, h]

theorem c5_restaurar_original_witness :
    restaurar_original initProcessor = .error (.typeError, initProcessor) ∧
    restaurar_original (carregar_imagem [[(1, 2, 3)]] initProcessor) =
      .ok { carregar_imagem [[(1, 2, 3)]] initProcessor with
              resultado := some [[(1, 2, 3)]], alpha_frames := [], alpha_index := 0 } :=
  ⟨(c5_restaurar_original initProcessor).1 rfl,
   (c5_restaurar_original (carregar_imagem [[(1, 2, 3)]] initProcessor)).2 [[(1, 2, 3)]] rfl⟩

/-! ## Claim C9 -/

/-- C9: in every session state reachable from the fresh processor by any
sequence of the exposed operations (including the states that raising calls
leave behind), a non-empty frame list keeps the cursor strictly below the
number of frames, so `frames[cursor]` never goes out of bounds. -/
theorem c9_cursor_in_range (s : ImageProcessor) (h : ReachableState s) :
    CursorInRange s := by
  unfold ReachableState at h
  induction h with
  | refl => intro hne; simp [initProcessor] at hne
  | tail _ hstep ih => exact cursorInRange_step hstep ih

theorem c9_cursor_in_range_witness :
    CursorInRange (after (aplicar_transparencia_preto
      (carregar_imagem [[(1, 2, 3)]] initProcessor))) :=
  c9_cursor_in_range _
    (Relation.ReflTransGen.tail (Relation.ReflTransGen.tail Relation.ReflTransGen.refl
      (step_carregar [[(1, 2, 3)]] initProcessor)) (step_transparencia _))

/-! ## Claim C1 -/

/-- C1 counterexample: the claimed invariant "frames non-empty implies
`resultado = frames[cursor]`" is violated in reachable states.  Loading
`[[(5,5,5),(10,10,10)]]`, generating the fade frames, and then either loading
a new image or advancing once and mirroring horizontally yields states whose
frame list is non-empty while `resultado` is not the frame under the cursor:
neither `carregar_imagem` nor the one-shot transforms clear `alpha_frames`. -/
theorem c1_frame_tracking_counterexample :
    (ReachableState (carregar_imagem [[(7, 7, 7)]]
        (after (aplicar_transparencia_preto
          (carregar_imagem [[(5, 5, 5), (10, 10, 10)]] initProcessor)))) ∧
      ¬ FrameTracking (carregar_imagem [[(7, 7, 7)]]
        (after (aplicar_transparencia_preto
          (carregar_imagem [[(5, 5, 5), (10, 10, 10)]] initProcessor))))) ∧
    (ReachableState (after (aplicar_espelhamento_horizontal
        (avancar_transparencia (after (aplicar_transparencia_preto
          (carregar_imagem [[(5, 5, 5), (10, 10, 10)]] initProcessor)))))) ∧
      ¬ FrameTracking (after (aplicar_espelhamento_horizontal
        (avancar_transparencia (after (aplicar_transparencia_preto
          (carregar_imagem [[(5, 5, 5), (10, 10, 10)]] initProcessor))))))) := by
  constructor
  · constructor
    · exact Relation.ReflTransGen.tail (Relation.ReflTransGen.tail
        (Relation.ReflTransGen.tail Relation.ReflTransGen.refl
          (step_carregar _ _)) (step_transparencia _)) (step_carregar _ _)
    · decide
  · constructor
    · exact Relation.ReflTransGen.tail (Relation.ReflTransGen.tail
        (Relation.ReflTransGen.tail (Relation.ReflTransGen.tail
          Relation.ReflTransGen.refl (step_carregar _ _)) (step_transparencia _))
        (step_avancar _)) (step_espelhamento_horizontal _)
    · decide

/-- C1 (amended): the invariant "frames non-empty implies `resultado` equals
`frames[cursor]`" is preserved by `preparar_mistura`, `restaurar_original`,
`aplicar_transparencia_preto`, `aplicar_mistura` and `avancar_transparencia`
(raising outcomes included), so it holds along any sequence of these five
operations from any state enjoying it; the remaining exposed operations
(`carregar_imagem`, the four geometric transforms and the segmentation)
replace or keep `resultado` without clearing `alpha_frames` and do not
preserve it. -/
theorem c1_frame_tracking_amended (s s' : ImageProcessor)
    (h : Relation.ReflTransGen StepKeep s s') (hs : FrameTracking s) :
    FrameTracking s' := by
  induction h with
  | refl => exact hs
  | tail _ hstep ih => exact frameTracking_stepKeep hstep ih

theorem c1_frame_tracking_amended_witness :
    FrameTracking (avancar_transparencia (after (aplicar_transparencia_preto
      (carregar_imagem [[(5, 5, 5), (10, 10, 10)]] initProcessor)))) :=
  c1_frame_tracking_amended _ _
    (Relation.ReflTransGen.tail (Relation.ReflTransGen.tail Relation.ReflTransGen.refl
      (stepKeep_transparencia _)) (stepKeep_avancar _))
    (by decide)

/-! ## Claim C4 -/

/-- C4 counterexample: after generating fade frames, applying the horizontal
mirror leaves the six frames in place — the one-shot transforms do not clear
the frame sequence as the claim asserts. -/
theorem c4_one_shot_counterexample :
    (after (aplicar_espelhamento_horizontal (after (aplicar_transparencia_preto
        (carregar_imagem [[(1, 2, 3)]] initProcessor))))).alpha_frames.length = 6 ∧
    (6 : ℕ) ≠ 0 := by
  constructor
  · decide
  · decide

/-- C4 (amended): on any state whose `resultado` is a matrix satisfying the
PixelMatrix invariant, each one-shot transform (two mirrors, two rotations,
segmentation) replaces `resultado` by the corresponding pure transform of the
current `resultado` and leaves every other field — in particular the frame
sequence and its cursor — unchanged. -/
theorem c4_one_shot_amended (s : ImageProcessor) (m : PixelMatrix)
    (hres : s.resultado = some m) (hm : validMatrix m) :
    aplicar_espelhamento_horizontal s =
      .ok { s with resultado := some (espelhamento_horizontal m) } ∧
    aplicar_espelhamento_vertical s =
      .ok { s with resultado := some (espelhamento_vertical m) } ∧
    rotacionar_direita s = .ok { s with resultado := some (rotacao_direita m) } ∧
    rotacionar_esquerda s = .ok { s with resultado := some (rotacao_esquerda m) } ∧
    ∀ alvo tolerancia, segmentar_por_cor alvo tolerancia s =
      .ok { s with resultado := some (segmentacao alvo tolerancia m) } := by
  obtain ⟨hne, hw, hrect, _⟩ := hm
  have hacc : rotacaoAcessos m := fun row hrow => le_of_eq (hrect row hrow).symm
  refine ⟨?_, ?_, ?_, ?_, ?_⟩
  · simp [aplicar_espelhamento_horizontal, hres]
  · simp [aplicar_espelhamento_vertical, hres]
  · simp only [rotacionar_direita, hres]
    rw [if_neg hne, if_pos hacc]
  · simp only [rotacionar_esquerda, hres]
    rw [if_neg hne, if_pos hacc]
  · intro alvo tolerancia
    simp [segmentar_por_cor, hres]

theorem c4_one_shot_amended_witness :
    aplicar_espelhamento_horizontal (carregar_imagem [[(1, 2, 3), (4, 5, 6)]] initProcessor) =
      .ok { carregar_imagem [[(1, 2, 3), (4, 5, 6)]] initProcessor with
              resultado := some (espelhamento_horizontal [[(1, 2, 3), (4, 5, 6)]]) } :=
  (c4_one_shot_amended (carregar_imagem [[(1, 2, 3), (4, 5, 6)]] initProcessor)
    [[(1, 2, 3), (4, 5, 6)]] rfl (by decide)).1

/-! ## Claim C6 -/

/-- C6: with an original satisfying the PixelMatrix invariant,
`aplicar_transparencia_preto` succeeds and produces exactly 6 frames; frame 0
has every pixel equal to `(0,0,0)` (multiplication by the float `0.0`
truncates every channel to 0) and frame 5 equals the original exactly
(`5 / 5.0 = 1.0` and channels up to 255 are exactly representable). -/
theorem c6_fade_frames (s : ImageProcessor) (m : PixelMatrix)
    (ho : s.original = some m) (hm : validMatrix m) :
    ∃ s', aplicar_transparencia_preto s = .ok s' ∧
      s'.alpha_frames.length = 6 ∧
      (∀ row ∈ s'.alpha_frames.getD 0 [], ∀ p ∈ row, p = ((0 : ℤ), (0 : ℤ), (0 : ℤ))) ∧
      s'.alpha_frames.getD 5 [] = m := by
  obtain ⟨_, _, _, hvalid⟩ := hm
  refine ⟨{ s with
      alpha_frames := fadeFrames m,
      resultado := some ((fadeFrames m).getD 0 []),
      alpha_index := 0 }, ?_, ?_, ?_, ?_⟩
  · simp [aplicar_transparencia_preto, ho]
  · exact fadeFrames_length m
  · rw [show ({ s with
        alpha_frames := fadeFrames m,
        resultado := some ((fadeFrames m).getD 0 []),
        alpha_index := 0 } : ImageProcessor).alpha_frames = fadeFrames m from rfl,
      fadeFrames_getD m 0 (by norm_num)]
    exact fadeFrame_zero_black m
  · rw [show ({ s with
        alpha_frames := fadeFrames m,
        resultado := some ((fadeFrames m).getD 0 []),
        alpha_index := 0 } : ImageProcessor).alpha_frames = fadeFrames m from rfl,
      fadeFrames_getD m 5 (by norm_num)]
    exact fadeFrame_five m hvalid

theorem c6_fade_frames_witness :
    ∃ s', aplicar_transparencia_preto (carregar_imagem [[(10, 20, 30)]] initProcessor) = .ok s' ∧
      s'.alpha_frames.length = 6 ∧
      (∀ row ∈ s'.alpha_frames.getD 0 [], ∀ p ∈ row, p = ((0 : ℤ), (0 : ℤ), (0 : ℤ))) ∧
      s'.alpha_frames.getD 5 [] = [[(10, 20, 30)]] :=
  c6_fade_frames _ [[(10, 20, 30)]] rfl (by decide)

/-! ## Claim C7 -/

/-- C7 counterexample: cross-fading the valid matrix `[[(3,3,3)]]` with itself
does not yield 11 frames all equal to it: frame 3 is `[[(2,2,2)]]`, because in
binary64 `3 * (1 - 0.3) + 3 * 0.3 = 2.9999999999999996`, which `int` truncates
to 2. -/
theorem c7_crossfade_counterexample :
    (after (aplicar_mistura
        ⟨some [[(3, 3, 3)]], some [[(3, 3, 3)]], [], 0,
          some [[(3, 3, 3)]]⟩)).alpha_frames.getD 3 [] = [[(2, 2, 2)]] ∧
    [[((2 : ℤ), (2 : ℤ), (2 : ℤ))]] ≠ [[((3 : ℤ), (3 : ℤ), (3 : ℤ))]] := by
  constructor
  · decide
  · decide

/-- C7 (amended): for valid matrices of identical dimensions, `aplicar_mistura`
succeeds with exactly 11 frames, frame 0 equal to `original` and frame 10
equal to the second image (`a = 0.0` and `a = 1.0` are exact); in particular
cross-fading a matrix with itself gives frames 0 and 10 equal to it, but the
intermediate frames may lose one unit per channel to float truncation. -/
theorem c7_crossfade_amended (s : ImageProcessor) (a b : PixelMatrix)
    (ho : s.original = some a) (hsec : s.second_image = some b)
    (ha : validMatrix a) (hb : validMatrix b)
    (hlen : a.length = b.length)
    (hwidth : (a.headD []).length = (b.headD []).length) :
    ∃ s', aplicar_mistura s = .ok s' ∧
      s'.alpha_frames.length = 11 ∧
      s'.alpha_frames.getD 0 [] = a ∧ s'.alpha_frames.getD 10 [] = b := by
  obtain ⟨hane, haw, harect, havalid⟩ := ha
  obtain ⟨hbne, hbw, hbrect, hbvalid⟩ := hb
  have hbrect' : ∀ row ∈ b, row.length = (a.headD []).length := by
    intro row hrow; rw [hwidth]; exact hbrect row hrow
  have hacc : misturaAcessos a b a.length (a.headD []).length := by
    intro i hi j hj
    refine ⟨?_, ?_, ?_⟩
    · rw [harect _ (getD_mem_of_lt a [] i hi)]; exact hj
    · rw [← hlen]; exact hi
    · rw [hbrect' _ (getD_mem_of_lt b [] i (by rw [← hlen]; exact hi))]; exact hj
  refine ⟨{ s with
      alpha_frames := blendFrames a b a.length (a.headD []).length,
      resultado := some ((blendFrames a b a.length (a.headD []).length).getD 0 []),
      alpha_index := 0 }, ?_, ?_, ?_, ?_⟩
  · simp only [aplicar_mistura, hsec, ho]
    rw [if_neg hane, if_pos hacc]
  · exact blendFrames_length a b a.length (a.headD []).length
  · rw [show ({ s with
        alpha_frames := blendFrames a b a.length (a.headD []).length,
        resultado := some ((blendFrames a b a.length (a.headD []).length).getD 0 []),
        alpha_index := 0 } : ImageProcessor).alpha_frames
          = blendFrames a b a.length (a.headD []).length from rfl,
      blendFrames_getD a b a.length (a.headD []).length 0 (by norm_num)]
    exact blendFrame_zero a b (a.headD []).length harect havalid
  · rw [show ({ s with
        alpha_frames := blendFrames a b a.length (a.headD []).length,
        resultado := some ((blendFrames a b a.length (a.headD []).length).getD 0 []),
        alpha_index := 0 } : ImageProcessor).alpha_frames
          = blendFrames a b a.length (a.headD []).length from rfl,
      blendFrames_getD a b a.length (a.headD []).length 10 (by norm_num)]
    exact blendFrame_ten a b (a.headD []).length hlen hbrect' hbvalid

theorem c7_crossfade_amended_witness :
    ∃ s', aplicar_mistura
        ⟨some [[(10, 20, 30)]], some [[(10, 20, 30)]], [], 0, some [[(40, 50, 60)]]⟩ = .ok s' ∧
      s'.alpha_frames.length = 11 ∧
      s'.alpha_frames.getD 0 [] = [[(10, 20, 30)]] ∧
      s'.alpha_frames.getD 10 [] = [[(40, 50, 60)]] :=
  c7_crossfade_amended _ [[(10, 20, 30)]] [[(40, 50, 60)]] rfl rfl
    (by decide) (by decide) rfl rfl

/-! ## Claim C3 -/

/-- C3 names a code bug: `aplicar_mistura` performs no dimension check.  On a
2×1 original and a 1×1 second image it raises `IndexError` (not a dedicated
dimension error), and it does not leave the session unchanged: the frame list,
non-empty beforehand, has already been cleared when the exception escapes. -/
theorem c3_dimension_mismatch_bug :
    aplicar_mistura
        ⟨some [[(0, 0, 0)], [(0, 0, 0)]], some [[(0, 0, 0)], [(0, 0, 0)]],
          [[[(1, 1, 1)]]], 0, some [[(9, 9, 9)]]⟩
      = .error (.indexError,
          ⟨some [[(0, 0, 0)], [(0, 0, 0)]], some [[(0, 0, 0)], [(0, 0, 0)]],
            [], 0, some [[(9, 9, 9)]]⟩) ∧
    ([] : List PixelMatrix) ≠ [[[(1, 1, 1)]]] := by
  constructor
  · decide
  · decide

/-! ## Claim C10 -/

/-- C10: the cross-fade takes its output dimensions from `original` alone;
whenever the second image is at least as tall and each of its rows at least as
wide as `original`, the operation succeeds (every index into the second image
is in range) and all 11 generated frames have exactly `original`'s dimensions,
silently cropping the second image to its top-left region. -/
theorem c10_crossfade_crop (s : ImageProcessor) (a b : PixelMatrix)
    (ho : s.original = some a) (hsec : s.second_image = some b)
    (ha : validMatrix a)
    (hheight : a.length ≤ b.length)
    (hwide : ∀ row ∈ b, (a.headD []).length ≤ row.length) :
    ∃ s', aplicar_mistura s = .ok s' ∧
      s'.alpha_frames.length = 11 ∧
      ∀ fr ∈ s'.alpha_frames, fr.length = a.length ∧
        ∀ row ∈ fr, row.length = (a.headD []).length := by
  obtain ⟨hane, haw, harect, _⟩ := ha
  have hacc : misturaAcessos a b a.length (a.headD []).length := by
    intro i hi j hj
    refine ⟨?_, lt_of_lt_of_le hi hheight, ?_⟩
    · rw [harect _ (getD_mem_of_lt a [] i hi)]; exact hj
    · exact lt_of_lt_of_le hj (hwide _ (getD_mem_of_lt b [] i (lt_of_lt_of_le hi hheight)))
  refine ⟨{ s with
      alpha_frames := blendFrames a b a.length (a.headD []).length,
      resultado := some ((blendFrames a b a.length (a.headD []).length).getD 0 []),
      alpha_index := 0 }, ?_, ?_, ?_⟩
  · simp only [aplicar_mistura, hsec, ho]
    rw [if_neg hane, if_pos hacc]
  · exact blendFrames_length a b a.length (a.headD []).length
  · intro fr hfr
    simp only [blendFrames, List.mem_map] at hfr
    obtain ⟨k, _, rfl⟩ := hfr
    refine ⟨by simp [blendFrame], ?_⟩
    intro row hrow
    simp only [blendFrame, List.mem_map] at hrow
    obtain ⟨i, _, rfl⟩ := hrow
    simp

theorem c10_crossfade_crop_witness :
    ∃ s', aplicar_mistura
        ⟨some [[(1, 1, 1)]], some [[(1, 1, 1)]], [], 0,
          some [[(2, 2, 2), (3, 3, 3)], [(4, 4, 4), (5, 5, 5)]]⟩ = .ok s' ∧
      s'.alpha_frames.length = 11 ∧
      ∀ fr ∈ s'.alpha_frames, fr.length = ([[((1 : ℤ), (1 : ℤ), (1 : ℤ))]] : PixelMatrix).length ∧
        ∀ row ∈ fr, row.length = (([[((1 : ℤ), (1 : ℤ), (1 : ℤ))]] : PixelMatrix).headD []).length :=
  c10_crossfade_crop _ [[(1, 1, 1)]] [[(2, 2, 2), (3, 3, 3)], [(4, 4, 4), (5, 5, 5)]]
    rfl rfl (by decide) (by decide) (by decide)

/-! ## Claim C2 -/

/-- C2 counterexample: a file whose body holds 6 pixel values for declared
dimensions 1×1 (so 6 ≠ 1·1·3) is decoded successfully, the surplus values
silently ignored — the decoder never compares the token count with
`width*height*3`. -/
theorem c2_decode_counterexample :
    carregar_ppm_p3 (some ⟨"P3", [1, 1], [255], [1, 2, 3, 4, 5, 6]⟩)
      = .ok [[(1, 2, 3)]] ∧ (6 : ℕ) ≠ 1 * 1 * 3 := by
  constructor
  · decide
  · decide

/-- C2 (amended): decoding fails with `IOError` when the file cannot be
opened, and with `ValueError` (the specification's `FormatError`) when the
stripped first line is not `P3`; when fewer than `width*height*3` values are
present (for positive dimensions) it fails, but with an uncaught `IndexError`
rather than a format error; surplus values beyond `width*height*3` are
accepted silently; a file with exactly `width*height*3` values decodes
successfully. -/
theorem c2_decode_amended :
    carregar_ppm_p3 none = .error .ioError ∧
    (∀ f : P3File, pstrip f.header.toList ≠ ("P3".toList) →
      carregar_ppm_p3 (some f) = .error .valueError) ∧
    (∀ f : P3File, ∀ w h : ℤ, pstrip f.header.toList = ("P3".toList) →
      f.dims = [w, h] → 0 < w → 0 < h → f.body.length < w.toNat * h.toNat * 3 →
      carregar_ppm_p3 (some f) = .error .indexError) ∧
    (∀ f : P3File, ∀ w h : ℤ, pstrip f.header.toList = ("P3".toList) →
      f.dims = [w, h] → f.body.length = w.toNat * h.toNat * 3 →
      carregar_ppm_p3 (some f) = .ok (buildImg f.body w.toNat h.toNat)) := by
  refine ⟨rfl, ?_, ?_, ?_⟩
  · intro f hhead
    simp only [carregar_ppm_p3]
    rw [if_neg hhead]
  · intro f w h hhead hdims hw hh hlen
    have hWpos : 0 < w.toNat := by omega
    have hHpos : 0 < h.toNat := by omega
    obtain ⟨W, hW⟩ : ∃ W, w.toNat = W + 1 := ⟨w.toNat - 1, by omega⟩
    obtain ⟨H, hH⟩ : ∃ H, h.toNat = H + 1 := ⟨h.toNat - 1, by omega⟩
    have hnot : ¬ ∀ i < h.toNat, ∀ j < w.toNat,
        (i * w.toNat + j) * 3 + 2 < f.body.length := by
      intro hall
      have h1 := hall H (by omega) W (by omega)
      rw [hW] at h1 hlen
      rw [hH] at hlen
      have e1 : (H * (W + 1) + W) * 3 + 2 + 1 = (W + 1) * (H + 1) * 3 := by ring
      omega
    simp only [carregar_ppm_p3, hhead, hdims, eq_self_iff_true, if_true]
    rw [if_neg hnot]
  · intro f w h hhead hdims hlen
    have hbound : ∀ i < h.toNat, ∀ j < w.toNat,
        (i * w.toNat + j) * 3 + 2 < f.body.length := by
      intro i hi j hj
      rw [hlen]
      have h1 : i * w.toNat + j + 1 ≤ w.toNat * h.toNat := by
        have h2 : (i + 1) * w.toNat = i * w.toNat + w.toNat := Nat.succ_mul i w.toNat
        have h3 : (i + 1) * w.toNat ≤ h.toNat * w.toNat :=
          Nat.mul_le_mul_right _ (by omega)
        have h4 : h.toNat * w.toNat = w.toNat * h.toNat := Nat.mul_comm _ _
        omega
      omega
    simp only [carregar_ppm_p3, hhead, hdims, eq_self_iff_true, if_true]
    rw [if_pos hbound]

theorem c2_decode_amended_witness :
    carregar_ppm_p3 (some ⟨"X3", [1, 1], [255], [1, 2, 3]⟩) = .error .valueError ∧
    carregar_ppm_p3 (some ⟨"P3", [2, 2], [255], [1, 2, 3]⟩) = .error .indexError ∧
    carregar_ppm_p3 (some ⟨"P3", [1, 1], [255], [10, 20, 30]⟩) = .ok [[(10, 20, 30)]] := by
  refine ⟨c2_decode_amended.2.1 _ (by decide),
    c2_decode_amended.2.2.1 ⟨"P3", [2, 2], [255], [1, 2, 3]⟩ 2 2 (by decide) rfl
      (by decide) (by decide) (by decide), ?_⟩
  have h := c2_decode_amended.2.2.2 ⟨"P3", [1, 1], [255], [10, 20, 30]⟩ 1 1 (by decide) rfl
    (by decide)
  rw [h]
  decide

/-! ## Claim C8 -/

/-- C8: the text written by `salvar_ppm_p3` for a matrix satisfying the
PixelMatrix invariant decodes, through `carregar_ppm_p3`, to the identical
matrix: the header is the literal `P3`, the dimension line is consistent, and
the row-major channel stream is rebuilt pixel by pixel. -/
theorem c8_round_trip (m : PixelMatrix) (hm : validMatrix m) :
    ∃ f : P3File, salvar_ppm_p3 (some m) = .ok f ∧
      carregar_ppm_p3 (some f) = .ok m := by
  obtain ⟨hne, hwpos, hrect, _⟩ := hm
  refine ⟨⟨"P3", [((m.headD []).length : ℤ), (m.length : ℤ)], [255], flatten3 m⟩, ?_, ?_⟩
  · simp [salvar_ppm_p3, hne]
  · have hlen : (flatten3 m).length = 3 * (m.headD []).length * m.length :=
      length_flatten3 m _ hrect
    have hbound : ∀ i < ((m.length : ℤ)).toNat, ∀ j < (((m.headD []).length : ℤ)).toNat,
        (i * (((m.headD []).length : ℤ)).toNat + j) * 3 + 2 < (flatten3 m).length := by
      simp only [Int.toNat_natCast]
      intro i hi j hj
      rw [hlen]
      have h2 : (i + 1) * (m.headD []).length = i * (m.headD []).length + (m.headD []).length :=
        Nat.succ_mul i (m.headD []).length
      have h3 : (i + 1) * (m.headD []).length ≤ m.length * (m.headD []).length :=
        Nat.mul_le_mul_right _ (by omega)
      have h4 : m.length * (m.headD []).length = (m.headD []).length * m.length :=
        Nat.mul_comm _ _
      have h5 : 3 * (m.headD []).length * m.length = 3 * ((m.headD []).length * m.length) := by
        ring
      omega
    simp only [carregar_ppm_p3]
    rw [if_pos (by decide : pstrip ("P3".toList) = ("P3".toList))]
    rw [if_pos hbound]
    rw [show (((m.headD []).length : ℤ)).toNat = (m.headD []).length from Int.toNat_natCast _,
      show ((m.length : ℤ)).toNat = m.length from Int.toNat_natCast _]
    rw [buildImg_flatten3 m _ hrect]

theorem c8_round_trip_witness :
    ∃ f : P3File, salvar_ppm_p3 (some [[(1, 2, 3), (4, 5, 6)]]) = .ok f ∧
      carregar_ppm_p3 (some f) = .ok [[(1, 2, 3), (4, 5, 6)]] :=
  c8_round_trip [[(1, 2, 3), (4, 5, 6)]] (by decide)
